import Mathlib

/-!
Verification development for the webgl-water (WebGPU port) repository.

The simulation state lives in two `width × height` RGBA float textures
(`src/webgpu/src/water.js`).  Each texel is one simulation cell:
channel `r` = height, `g` = vertical velocity, `b` = normal x,
`a` = normal z.  Every simulation pass is a fragment shader run once per
texel; the fragment at texel `(i, j)` has `uv = ((i+1/2)/width, (j+1/2)/height)`,
and all texture reads go through a linear, clamp-to-edge sampler
(`water.js` lines 27-32).  Offsets used by the shaders are whole texel
multiples (`1/width`, `1/height`), so every sample lands exactly on a texel
center and linear filtering returns that texel's value; coordinates outside
the texture clamp to the nearest edge texel.  We therefore embed a pass as a
per-texel function on an integer-indexed grid with clamped indexing.

GPU builtin functions that produce irrational reals (`sqrt`, `exp`, `cos`)
are modelled as explicit function parameters `sqrtf expf cosf : ℚ → ℚ`;
theorems quantify over them (adding only the facts about the real builtins
they need as hypotheses), so every statement holds in particular for the
true real-valued builtins.  All arithmetic is exact rational arithmetic, the
idealization of the shader's f32 arithmetic.
-/

namespace WaterSim

/-- One simulation cell / texel of the water state texture: `r` = height,
`g` = vertical velocity, `b` = stored normal x, `a` = stored normal z
(`water.js`, state texture layout). -/
structure Cell where
  r : ℚ
  g : ℚ
  b : ℚ
  a : ℚ
deriving DecidableEq, Repr

/-- A grid of cells, addressed by texel index.  Only indices
`i < width`, `j < height` are meaningful; the physical texture is finite. -/
def GridFun : Type := ℕ → ℕ → Cell

/-- Clamp an integer texel index into `[0, n-1]`: the effect of the
clamp-to-edge address mode of the sampler (`water.js` lines 30-31) on a
sample taken a whole number of texels outside the texture. -/
def clampIdx (n : ℕ) (i : ℤ) : ℕ :=
  (max 0 (min ((n : ℤ) - 1) i)).toNat

/-- Sampling the state texture with the clamp-to-edge sampler at the center
of (possibly out-of-range) texel `(i, j)`. -/
def sampleClamped (w h : ℕ) (grid : GridFun) (i j : ℤ) : Cell :=
  grid (clampIdx w i) (clampIdx h j)

/-- The update (propagation) fragment shader, `water.js` lines 106-124, at
texel `(i, j)`: it samples the four axis neighbors at uv offsets
`±(1/width, 0)` and `±(0, 1/height)` (exactly one texel), averages their
heights with factor `0.25`, then performs
`g += (average - r) * 2; g *= 0.995; r += g`, leaving `b` and `a` as
sampled. -/
def updateCell (w h : ℕ) (grid : GridFun) (i j : ℕ) : Cell :=
  let info := grid i j
  let average :=
    ((sampleClamped w h grid ((i : ℤ) - 1) j).r +
     (sampleClamped w h grid i ((j : ℤ) - 1)).r +
     (sampleClamped w h grid ((i : ℤ) + 1) j).r +
     (sampleClamped w h grid i ((j : ℤ) + 1)).r) * 0.25
  let g1 := info.g + (average - info.r) * 2
  let g2 := g1 * 0.995
  { r := info.r + g2, g := g2, b := info.b, a := info.a }

/-- Spec-side restatement of one Propagate tick at one cell, written from
the claim's words: `average` is the mean of the heights of the four axis
neighbors with out-of-range neighbors clamped to the nearest edge cell;
then `velocity += (average - height) * 2`, then `velocity *= 0.995`, then
`height += velocity`; the stored normal channels are carried over
unchanged. -/
def specPropagateCell (w h : ℕ) (grid : GridFun) (i j : ℕ) : Cell :=
  let height := (grid i j).r
  let velocity0 := (grid i j).g
  let average :=
    ((sampleClamped w h grid ((i : ℤ) - 1) j).r +
     (sampleClamped w h grid ((i : ℤ) + 1) j).r +
     (sampleClamped w h grid i ((j : ℤ) - 1)).r +
     (sampleClamped w h grid i ((j : ℤ) + 1)).r) / 4
  let velocity1 := velocity0 + (average - height) * 2
  let velocity2 := velocity1 * 0.995
  { r := height + velocity2, g := velocity2, b := (grid i j).b, a := (grid i j).a }

/-- CLAIM C1: Propagate (stepSimulation) applies to every cell exactly the
update: average = mean of the four axis neighbors' heights sampled at one
texel offsets with out-of-range neighbors clamped to the nearest edge cell;
then `velocity += (average − height) · 2`; then `velocity *= 0.995`; then
`height += velocity`; and the cell's stored `normalX`/`normalZ` channels
are unchanged by this operation. -/
theorem propagate_cell_matches_spec (w h : ℕ) (grid : GridFun) (i j : ℕ) :
    updateCell w h grid i j = specPropagateCell w h grid i j ∧
    (updateCell w h grid i j).b = (grid i j).b ∧
    (updateCell w h grid i j).a = (grid i j).a := by
  refine ⟨?_, rfl, rfl⟩
  unfold updateCell specPropagateCell
  simp only [Cell.mk.injEq, and_true]
  exact ⟨by ring, by ring⟩

/-- Clamped indices always land inside a nonempty grid. -/
theorem clampIdx_lt (n : ℕ) (i : ℤ) (hn : 0 < n) : clampIdx n i < n := by
  unfold clampIdx
  rcases le_or_lt i 0 with hi | hi
  · have : max 0 (min ((n : ℤ) - 1) i) ≤ max 0 i := by
      exact max_le_max le_rfl (min_le_right _ _)
    omega
  · have h1 : min ((n : ℤ) - 1) i ≤ (n : ℤ) - 1 := min_le_left _ _
    have h2 : max 0 (min ((n : ℤ) - 1) i) ≤ (n : ℤ) - 1 := by
      apply max_le _ h1
      omega
    omega

/-- CLAIM C10: still water stays still.  If every cell of a (nonempty) grid
has the same height `hv` and velocity `0`, then after one propagation step
every cell still has height `hv` and velocity `0`: clamped sampling makes
each cell's four-neighbor average equal its own height, so the velocity
increment is zero, and damping maps zero velocity to zero. -/
theorem still_water_fixed_point (w h : ℕ) (grid : GridFun) (hv : ℚ)
    (hw : 0 < w) (hh : 0 < h)
    (huniform : ∀ i j, i < w → j < h → (grid i j).r = hv ∧ (grid i j).g = 0) :
    ∀ i j, i < w → j < h →
      (updateCell w h grid i j).r = hv ∧ (updateCell w h grid i j).g = 0 := by
  intro i j hi hj
  have hr : ∀ (i' : ℤ) (j' : ℤ), (sampleClamped w h grid i' j').r = hv := by
    intro i' j'
    exact (huniform _ _ (clampIdx_lt w i' hw) (clampIdx_lt h j' hh)).1
  have hij := huniform i j hi hj
  unfold updateCell
  simp only [hr, hij.1, hij.2]
  constructor
  · ring
  · ring

/-- Witness for C10 on a concrete 2×2 uniform grid of height 5. -/
theorem still_water_fixed_point_witness :
    (updateCell 2 2 (fun _ _ => ⟨5, 0, 0, 0⟩) 0 0).r = 5 ∧
    (updateCell 2 2 (fun _ _ => ⟨5, 0, 0, 0⟩) 0 0).g = 0 :=
  still_water_fixed_point 2 2 (fun _ _ => ⟨5, 0, 0, 0⟩) 5
    (by decide) (by decide) (fun _ _ _ _ => ⟨rfl, rfl⟩) 0 0 (by decide) (by decide)

/-! ### Drop injection (`water.js` dropPipeline, lines 71-93) -/

/-- Literal `3.14159265` used by the drop shader (`water.js` line 87).  As
an f32 it is the same float as pi. -/
def piLit : ℚ := 3.14159265

/-- Distance, in grid uv space, between the texel at `uv` and the drop
center mapped from world `[-1,1]` coordinates to uv by `* 0.5 + 0.5`
(`length(u.center * 0.5 + 0.5 - uv)`, `water.js` line 86).  `sqrtf` models
the sqrt builtin. -/
def distUV (sqrtf : ℚ → ℚ) (center uv : ℚ × ℚ) : ℚ :=
  sqrtf ((center.1 * 0.5 + 0.5 - uv.1) ^ 2 + (center.2 * 0.5 + 0.5 - uv.2) ^ 2)

/-- The drop fragment shader at one texel (`water.js` lines 83-92):
`drop = max(0, 1 - dist/radius)`, `dropVal = 0.5 - cos(drop * 3.14159265) * 0.5`,
`info.r += dropVal * strength`. -/
def dropCell (sqrtf cosf : ℚ → ℚ) (center : ℚ × ℚ) (radius strength : ℚ)
    (uv : ℚ × ℚ) (info : Cell) : Cell :=
  { info with
    r := info.r +
      (0.5 - cosf (max 0 (1 - distUV sqrtf center uv / radius) * piLit) * 0.5)
        * strength }

/-- Clamp of `v` to the interval `[lo, hi]`. -/
def clampQ (v lo hi : ℚ) : ℚ := max lo (min v hi)

/-- Spec-side drop contribution, written from the claim's words:
`(1 - cos(pi * clamp(1 - dist/radius, 0, 1))) / 2 * strength`. -/
def specDropContribution (cosf : ℚ → ℚ) (dist radius strength : ℚ) : ℚ :=
  (1 - cosf (piLit * clampQ (1 - dist / radius) 0 1)) / 2 * strength

/-- CLAIM C5: Drop adds to every cell's height exactly
`(1 - cos(pi * clamp(1 - dist/radius, 0, 1))) / 2 * strength` (and changes
no other channel); on an all-zero grid the result is zero at every cell at
distance at least `radius` from the drop center and strictly positive at
the center cell when `strength > 0`.  Hypotheses state the used facts about
the real builtins: `cos 0 = 1`, `cos piLit < 1` (piLit lies strictly
between 0 and 2 pi), `sqrt 0 = 0`, and sqrt is nonnegative. -/
theorem drop_formula_and_locality (sqrtf cosf : ℚ → ℚ) (center : ℚ × ℚ)
    (radius strength : ℚ) (hrad : 0 < radius) (hcos0 : cosf 0 = 1)
    (hcospi : cosf piLit < 1) (hsqrt0 : sqrtf 0 = 0)
    (hsqrtnn : ∀ q, 0 ≤ q → 0 ≤ sqrtf q) :
    (∀ uv info,
        (dropCell sqrtf cosf center radius strength uv info).r =
          info.r + specDropContribution cosf (distUV sqrtf center uv) radius strength ∧
        (dropCell sqrtf cosf center radius strength uv info).g = info.g ∧
        (dropCell sqrtf cosf center radius strength uv info).b = info.b ∧
        (dropCell sqrtf cosf center radius strength uv info).a = info.a) ∧
    (∀ uv, radius ≤ distUV sqrtf center uv →
        (dropCell sqrtf cosf center radius strength uv ⟨0, 0, 0, 0⟩).r = 0) ∧
    (0 < strength →
        0 < (dropCell sqrtf cosf center radius strength
              (center.1 * 0.5 + 0.5, center.2 * 0.5 + 0.5) ⟨0, 0, 0, 0⟩).r) := by
  have hdist : ∀ uv : ℚ × ℚ, 0 ≤ distUV sqrtf center uv := by
    intro uv
    exact hsqrtnn _ (by positivity)
  refine ⟨?_, ?_, ?_⟩
  · intro uv info
    have hle : 1 - distUV sqrtf center uv / radius ≤ 1 := by
      have : 0 ≤ distUV sqrtf center uv / radius :=
        div_nonneg (hdist uv) (le_of_lt hrad)
      linarith
    have hclamp : clampQ (1 - distUV sqrtf center uv / radius) 0 1 =
        max 0 (1 - distUV sqrtf center uv / radius) := by
      unfold clampQ
      rw [min_eq_left hle]
    refine ⟨?_, rfl, rfl, rfl⟩
    unfold dropCell specDropContribution
    rw [hclamp, mul_comm piLit _]
    ring
  · intro uv hfar
    have hdrop : max 0 (1 - distUV sqrtf center uv / radius) = 0 := by
      have : (1 : ℚ) ≤ distUV sqrtf center uv / radius :=
        (one_le_div hrad).mpr hfar
      have : 1 - distUV sqrtf center uv / radius ≤ 0 := by linarith
      exact max_eq_left this
    unfold dropCell
    simp only [hdrop, zero_mul, hcos0]
    norm_num
  · intro hstr
    have hd0 : distUV sqrtf center (center.1 * 0.5 + 0.5, center.2 * 0.5 + 0.5) = 0 := by
      unfold distUV
      norm_num [hsqrt0]
    have hdrop : max 0 (1 - distUV sqrtf center
        (center.1 * 0.5 + 0.5, center.2 * 0.5 + 0.5) / radius) = 1 := by
      rw [hd0]
      norm_num
    unfold dropCell
    simp only [hdrop, one_mul]
    have hpos : 0 < (0.5 - cosf piLit * 0.5 : ℚ) := by linarith
    have := mul_pos hpos hstr
    linarith

/-- Witness for C5: concrete builtin models satisfying the hypotheses, a
drop of radius `1/5`, strength `1` at world origin; the formula holds, a
texel at model distance `1/4` from the center stays at height zero, and the
center texel becomes strictly positive. -/
theorem drop_formula_and_locality_witness :
    (dropCell id (fun q => if q = 0 then 1 else -1) (0, 0) (1/5) 1
        (1, 1/2) ⟨0, 0, 0, 0⟩).r = 0 ∧
    0 < (dropCell id (fun q => if q = 0 then 1 else -1) (0, 0) (1/5) 1
        ((0 : ℚ) * 0.5 + 0.5, (0 : ℚ) * 0.5 + 0.5) ⟨0, 0, 0, 0⟩).r := by
  have h := drop_formula_and_locality id (fun q => if q = 0 then 1 else -1)
    (0, 0) (1/5) 1 (by norm_num)
    (by norm_num) (by norm_num [piLit]) (by norm_num)
    (fun q hq => by simpa using hq)
  refine ⟨h.2.1 (1, 1/2) ?_, h.2.2 (by norm_num)⟩
  unfold distUV
  norm_num

/-! ### Vector algebra (`lightgl.js` Vector) and sphere coupling -/

/-- Embedding of the `Vector` class of `src/webgpu/src/lightgl.js` (and of
WGSL `vec3f` values in the shaders): a 3-vector of rationals. -/
structure Vec3 where
  x : ℚ
  y : ℚ
  z : ℚ
deriving DecidableEq, Repr

namespace Vec3

/-- Componentwise sum (`Vector.add` with a vector argument). -/
def add (v w : Vec3) : Vec3 := ⟨v.x + w.x, v.y + w.y, v.z + w.z⟩

/-- Componentwise difference (`Vector.subtract` with a vector argument). -/
def sub (v w : Vec3) : Vec3 := ⟨v.x - w.x, v.y - w.y, v.z - w.z⟩

/-- Scaling (`Vector.multiply` with a scalar argument). -/
def mulScalar (v : Vec3) (s : ℚ) : Vec3 := ⟨v.x * s, v.y * s, v.z * s⟩

/-- Componentwise quotient (`Vector.divide` with a vector argument). -/
def divV (v w : Vec3) : Vec3 := ⟨v.x / w.x, v.y / w.y, v.z / w.z⟩

/-- Division by a scalar (`Vector.divide` with a scalar argument). -/
def divScalar (v : Vec3) (s : ℚ) : Vec3 := ⟨v.x / s, v.y / s, v.z / s⟩

/-- Dot product (`Vector.dot`). -/
def dot (v w : Vec3) : ℚ := v.x * w.x + v.y * w.y + v.z * w.z

/-- Cross product (`Vector.cross`). -/
def cross (v w : Vec3) : Vec3 :=
  ⟨v.y * w.z - v.z * w.y, v.z * w.x - v.x * w.z, v.x * w.y - v.y * w.x⟩

/-- Euclidean length `sqrt(dot v v)` (`Vector.length`); `sqrtf` models
`Math.sqrt`. -/
def length (sqrtf : ℚ → ℚ) (v : Vec3) : ℚ := sqrtf (dot v v)

/-- Normalization `v / |v|` (`Vector.unit`). -/
def unit (sqrtf : ℚ → ℚ) (v : Vec3) : Vec3 := divScalar v (length sqrtf v)

/-- Linear interpolation `a + (b - a) * t` (`Vector.lerp`). -/
def lerp (a b : Vec3) (t : ℚ) : Vec3 := add a (mulScalar (sub b a) t)

/-- Componentwise minimum (static `Vector.min`). -/
def vmin (v w : Vec3) : Vec3 := ⟨min v.x w.x, min v.y w.y, min v.z w.z⟩

/-- Componentwise maximum (static `Vector.max`). -/
def vmax (v w : Vec3) : Vec3 := ⟨max v.x w.x, max v.y w.y, max v.z w.z⟩

/-- Smallest component (`Vector.min` instance method). -/
def compMin (v : Vec3) : ℚ := min (min v.x v.y) v.z

/-- Largest component (`Vector.max` instance method). -/
def compMax (v : Vec3) : ℚ := max (max v.x v.y) v.z

end Vec3

/-- The `volumeInSphere` helper of the sphere-coupling shader
(`water.js` lines 168-177): the column of fluid locally displaced by the
sphere at `center` under the texel at `uv`, with the Gaussian-like falloff
`exp(-(dist/radius*1.5)^6)`.  `sqrtf` and `expf` model the sqrt and exp
builtins. -/
def volumeInSphere (sqrtf expf : ℚ → ℚ) (center : Vec3) (uv : ℚ × ℚ)
    (radius : ℚ) : ℚ :=
  let p : Vec3 := ⟨uv.1 * 2 - 1, 0, uv.2 * 2 - 1⟩
  let dist := Vec3.length sqrtf (Vec3.sub p center)
  let t := dist / radius
  let dy := expf (-(t * 1.5) ^ 6)
  let ymin := min 0 (center.y - dy)
  let ymax := min (max 0 (center.y + dy)) (ymin + 2 * dy)
  (ymax - ymin) * 0.1

/-- The sphere-coupling fragment shader at one texel (`water.js` lines
179-187): `info.r += volumeInSphere(oldCenter) - volumeInSphere(newCenter)`,
all other channels unchanged. -/
def sphereCell (sqrtf expf : ℚ → ℚ) (oldCenter newCenter : Vec3)
    (radius : ℚ) (uv : ℚ × ℚ) (info : Cell) : Cell :=
  { info with
    r := info.r + volumeInSphere sqrtf expf oldCenter uv radius
                - volumeInSphere sqrtf expf newCenter uv radius }

/-- CLAIM C3: sphere coupling is idempotent.  For every builtin model,
grid cell, center and radius, `moveSphere(c, c, r)` leaves the cell
entirely unchanged: the per-cell delta
`volumeInSphere(oldCenter) - volumeInSphere(newCenter)` vanishes when the
two centers coincide. -/
theorem moveSphere_idempotent (sqrtf expf : ℚ → ℚ) (c : Vec3) (radius : ℚ)
    (uv : ℚ × ℚ) (info : Cell) :
    sphereCell sqrtf expf c c radius uv info = info := by
  cases info
  unfold sphereCell
  simp only [Cell.mk.injEq, and_true]
  ring

/-- CLAIM C4: sphere coupling conserves volume and round-trips.  Each
cell's height change under `moveSphere(A, B, r)` equals
`volumeInSphere(A, uv, r) - volumeInSphere(B, uv, r)` (other channels
unchanged), and `moveSphere(A, B, r)` followed by `moveSphere(B, A, r)`
restores the cell exactly (exactly in the rational model, which is the
claim's statement up to floating-point tolerance). -/
theorem moveSphere_conserves_and_roundtrips (sqrtf expf : ℚ → ℚ)
    (A B : Vec3) (radius : ℚ) (uv : ℚ × ℚ) (info : Cell) :
    (sphereCell sqrtf expf A B radius uv info).r - info.r =
      volumeInSphere sqrtf expf A uv radius -
        volumeInSphere sqrtf expf B uv radius ∧
    (sphereCell sqrtf expf A B radius uv info).g = info.g ∧
    (sphereCell sqrtf expf A B radius uv info).b = info.b ∧
    (sphereCell sqrtf expf A B radius uv info).a = info.a ∧
    sphereCell sqrtf expf B A radius uv
      (sphereCell sqrtf expf A B radius uv info) = info := by
  cases info
  refine ⟨by unfold sphereCell; ring, rfl, rfl, rfl, ?_⟩
  unfold sphereCell
  simp only [Cell.mk.injEq, and_true]
  ring

/-! ### Raytracer hit tests (`lightgl.js` Raytracer, lines 202-237) -/

/-- Result record of the hit tests (`lightgl.js` class HitTest): parameter
`t` along the ray, hit point, and surface normal. -/
structure HitTest where
  t : ℚ
  hit : Vec3
  normal : Vec3
deriving DecidableEq, Repr

/-- Quadratic coefficient `a = ray.dot(ray)` of the sphere hit test
(`lightgl.js` line 226). -/
def sphereQuadA (ray : Vec3) : ℚ := Vec3.dot ray ray

/-- Quadratic coefficient `b = 2 * ray.dot(origin - center)`
(`lightgl.js` line 227). -/
def sphereQuadB (origin ray center : Vec3) : ℚ :=
  2 * Vec3.dot ray (Vec3.sub origin center)

/-- Quadratic coefficient `c = |origin - center|^2 - radius^2`
(`lightgl.js` line 228). -/
def sphereQuadC (origin center : Vec3) (radius : ℚ) : ℚ :=
  Vec3.dot (Vec3.sub origin center) (Vec3.sub origin center) - radius * radius

/-- Discriminant `b*b - 4*a*c` of the sphere hit quadratic
(`lightgl.js` line 229). -/
def sphereDisc (origin ray center : Vec3) (radius : ℚ) : ℚ :=
  sphereQuadB origin ray center * sphereQuadB origin ray center -
    4 * sphereQuadA ray * sphereQuadC origin center radius

/-- The returned ray parameter `(-b - sqrt(discriminant)) / (2a)`
(`lightgl.js` line 232); `s` stands for the value `Math.sqrt(discriminant)`
computed by the caller. -/
def sphereEntryT (origin ray center : Vec3) (s : ℚ) : ℚ :=
  (-(sphereQuadB origin ray center) - s) / (2 * sphereQuadA ray)

/-- Embedding of `Raytracer.hitTestSphere` (`lightgl.js` lines 224-237):
if the discriminant is strictly positive, return
`t = (-b - sqrt(disc)) / (2a)`, hit point `origin + t * ray` and normal
`(hit - center) / radius`; otherwise no hit.  The parameter `s` models the
irrational value `Math.sqrt(discriminant)`. -/
def hitTestSphere (origin ray center : Vec3) (radius s : ℚ) : Option HitTest :=
  if 0 < sphereDisc origin ray center radius then
    let t := sphereEntryT origin ray center s
    let hit := Vec3.add origin (Vec3.mulScalar ray t)
    some ⟨t, hit, Vec3.divScalar (Vec3.sub hit center) radius⟩
  else
    none

/-- COUNTEREXAMPLE to CLAIM C2 as stated: for origin `(0,0,5)`, direction
`(0,0,1)` (sphere entirely behind the ray), center `(0,0,0)`, radius `1`,
the discriminant is `4 > 0` (its true square root is `2`), and the code
returns a hit with `t = -6 < 0` — but the quadratic has no positive root
here, so the returned `t` is not "the nearest positive root". -/
theorem hitTestSphere_positive_root_counterexample :
    (0 : ℚ) ≤ 2 ∧
    (2 : ℚ) * 2 = sphereDisc ⟨0, 0, 5⟩ ⟨0, 0, 1⟩ ⟨0, 0, 0⟩ 1 ∧
    hitTestSphere ⟨0, 0, 5⟩ ⟨0, 0, 1⟩ ⟨0, 0, 0⟩ 1 2 =
      some ⟨-6, ⟨0, 0, -1⟩, ⟨0, 0, -1⟩⟩ ∧
    ¬ (0 < (-6 : ℚ)) := by
  have hdisc : sphereDisc ⟨0, 0, 5⟩ ⟨0, 0, 1⟩ ⟨0, 0, 0⟩ 1 = 4 := by
    norm_num [sphereDisc, sphereQuadA, sphereQuadB, sphereQuadC, Vec3.dot, Vec3.sub]
  refine ⟨by norm_num, by rw [hdisc]; norm_num, ?_, by norm_num⟩
  unfold hitTestSphere
  rw [if_pos (by rw [hdisc]; norm_num)]
  norm_num [sphereEntryT, sphereQuadA, sphereQuadB, Vec3.dot, Vec3.sub, Vec3.add,
    Vec3.mulScalar, Vec3.divScalar, HitTest.mk.injEq, Vec3.mk.injEq]

/-- CLAIM C2 (amended): `hitTestSphere` returns a hit exactly when the
discriminant of `|origin + t*ray - center|^2 = radius^2` is strictly
positive (tangent case is a miss); the returned `t` is the smaller root
`(-b - sqrt(disc)) / (2a)` of the quadratic — hence the nearest positive
root (entry point) whenever that root is positive — with hit point
`origin + t*ray` and outward normal `(hit - center)/radius`.  `s` is
`Math.sqrt(discriminant)`, characterized by `0 ≤ s` and
`s * s = discriminant`. -/
theorem hitTestSphere_returns_smaller_root (origin ray center : Vec3)
    (radius s : ℚ) (hs : 0 ≤ s)
    (hsq : s * s = sphereDisc origin ray center radius) :
    (hitTestSphere origin ray center radius s = none ↔
      sphereDisc origin ray center radius ≤ 0) ∧
    (0 < sphereDisc origin ray center radius →
      hitTestSphere origin ray center radius s =
        some ⟨sphereEntryT origin ray center s,
          Vec3.add origin (Vec3.mulScalar ray (sphereEntryT origin ray center s)),
          Vec3.divScalar
            (Vec3.sub (Vec3.add origin
              (Vec3.mulScalar ray (sphereEntryT origin ray center s))) center)
            radius⟩) ∧
    (0 < sphereQuadA ray →
      (sphereQuadA ray * sphereEntryT origin ray center s ^ 2 +
        sphereQuadB origin ray center * sphereEntryT origin ray center s +
        sphereQuadC origin center radius = 0) ∧
      (∀ t', sphereQuadA ray * t' ^ 2 + sphereQuadB origin ray center * t' +
          sphereQuadC origin center radius = 0 →
        sphereEntryT origin ray center s ≤ t')) := by
  refine ⟨?_, ?_, ?_⟩
  · unfold hitTestSphere
    split_ifs with hd
    · simp only [Option.some_ne_none, false_iff, not_le]
      exact hd
    · simp only [true_iff]
      linarith [not_lt.mp hd]
  · intro hd
    unfold hitTestSphere
    rw [if_pos hd]
  · intro ha
    have h2a : (2 * sphereQuadA ray) ≠ 0 := by positivity
    constructor
    · unfold sphereEntryT
      field_simp
      unfold sphereDisc at hsq
      ring_nf
      ring_nf at hsq
      nlinarith [hsq]
    · intro t' ht'
      have key : (2 * sphereQuadA ray * t' + sphereQuadB origin ray center) ^ 2
          = s ^ 2 := by
        unfold sphereDisc at hsq
        nlinarith [ht', hsq]
      have habs : -s ≤ 2 * sphereQuadA ray * t' + sphereQuadB origin ray center := by
        nlinarith [key, hs,
          sq_nonneg (2 * sphereQuadA ray * t' + sphereQuadB origin ray center + s)]
      unfold sphereEntryT
      rw [div_le_iff₀ (by positivity)]
      linarith

/-- Witness for C2 (amended) at the spec's concrete scenario: origin
`(0,0,5)`, direction `(0,0,-1)`, unit sphere at the origin; the
discriminant is `4`, its square root `2`, and the code returns `t = 4`,
hit `(0,0,1)`, normal `(0,0,1)`. -/
theorem hitTestSphere_returns_smaller_root_witness :
    hitTestSphere ⟨0, 0, 5⟩ ⟨0, 0, -1⟩ ⟨0, 0, 0⟩ 1 2 =
      some ⟨4, ⟨0, 0, 1⟩, ⟨0, 0, 1⟩⟩ := by
  have hdisc : sphereDisc ⟨0, 0, 5⟩ ⟨0, 0, -1⟩ ⟨0, 0, 0⟩ 1 = 4 := by
    norm_num [sphereDisc, sphereQuadA, sphereQuadB, sphereQuadC, Vec3.dot, Vec3.sub]
  have h := hitTestSphere_returns_smaller_root ⟨0, 0, 5⟩ ⟨0, 0, -1⟩ ⟨0, 0, 0⟩ 1 2
    (by norm_num) (by rw [hdisc]; norm_num)
  rw [h.2.1 (by rw [hdisc]; norm_num)]
  norm_num [sphereEntryT, sphereQuadA, sphereQuadB, Vec3.dot, Vec3.sub, Vec3.add,
    Vec3.mulScalar, Vec3.divScalar, HitTest.mk.injEq, Vec3.mk.injEq]

/-- Scalar addition to all components (`Vector.add` with a scalar
argument, used by `hitTestBox` for the epsilon inset). -/
def Vec3.addScalar (v : Vec3) (s : ℚ) : Vec3 := ⟨v.x + s, v.y + s, v.z + s⟩

/-- Scalar subtraction from all components (`Vector.subtract` with a
scalar argument). -/
def Vec3.subScalar (v : Vec3) (s : ℚ) : Vec3 := ⟨v.x - s, v.y - s, v.z - s⟩

/-- JavaScript boolean-to-number coercion used in the box normal:
`true` is `1`, `false` is `0`. -/
def b2q (p : Prop) [Decidable p] : ℚ := if p then 1 else 0

/-- The face normal computed by `hitTestBox` (`lightgl.js` lines 211-218):
after insetting the box by `epsilon = 1e-6`,
each component is `(hit > max) - (hit < min)`. -/
def boxNormal (hit mn mx : Vec3) : Vec3 :=
  let eps : ℚ := 1 / 1000000
  let mn' := Vec3.addScalar mn eps
  let mx' := Vec3.subScalar mx eps
  ⟨b2q (mx'.x < hit.x) - b2q (hit.x < mn'.x),
   b2q (mx'.y < hit.y) - b2q (hit.y < mn'.y),
   b2q (mx'.z < hit.z) - b2q (hit.z < mn'.z)⟩

/-- Embedding of `Raytracer.hitTestBox` (`lightgl.js` lines 202-222): the
slab test.  Exact rational division stands in for the JS float division;
the embedding is faithful for rays with no zero component (the JS code
relies on IEEE infinities when a component is zero). -/
def hitTestBox (origin ray mn mx : Vec3) : Option HitTest :=
  let tMin := Vec3.divV (Vec3.sub mn origin) ray
  let tMax := Vec3.divV (Vec3.sub mx origin) ray
  let t1 := Vec3.vmin tMin tMax
  let t2 := Vec3.vmax tMin tMax
  let tNear := Vec3.compMax t1
  let tFar := Vec3.compMin t2
  if 0 < tNear ∧ tNear < tFar then
    let hit := Vec3.add origin (Vec3.mulScalar ray tNear)
    some ⟨tNear, hit, boxNormal hit mn mx⟩
  else
    none

/-- Spec-side entry parameter of the slab test, written from the claim's
words: the maximum over the three axes of the per-axis entry parameters
(each the smaller of the two slab-plane parameters of that axis). -/
def slabTNear (origin ray mn mx : Vec3) : ℚ :=
  max (max (min ((mn.x - origin.x) / ray.x) ((mx.x - origin.x) / ray.x))
           (min ((mn.y - origin.y) / ray.y) ((mx.y - origin.y) / ray.y)))
      (min ((mn.z - origin.z) / ray.z) ((mx.z - origin.z) / ray.z))

/-- Spec-side exit parameter of the slab test: the minimum over the three
axes of the per-axis exit parameters. -/
def slabTFar (origin ray mn mx : Vec3) : ℚ :=
  min (min (max ((mn.x - origin.x) / ray.x) ((mx.x - origin.x) / ray.x))
           (max ((mn.y - origin.y) / ray.y) ((mx.y - origin.y) / ray.y)))
      (max ((mn.z - origin.z) / ray.z) ((mx.z - origin.z) / ray.z))

/-- CLAIM C9: `hitTestBox` performs the slab test and reports a hit if and
only if `0 < tNear < tFar`, in which case the returned `t` is `tNear` and
the hit point is `origin + tNear * ray`.  The hypotheses restrict to rays
with no zero component, where exact rational division agrees with the JS
float division. -/
theorem hitTestBox_slab (origin ray mn mx : Vec3)
    (hx : ray.x ≠ 0) (hy : ray.y ≠ 0) (hz : ray.z ≠ 0) :
    ((hitTestBox origin ray mn mx).isSome ↔
      (0 < slabTNear origin ray mn mx ∧
        slabTNear origin ray mn mx < slabTFar origin ray mn mx)) ∧
    (∀ ht, hitTestBox origin ray mn mx = some ht →
      ht.t = slabTNear origin ray mn mx ∧
      ht.hit = Vec3.add origin
        (Vec3.mulScalar ray (slabTNear origin ray mn mx))) := by
  have hnear : slabTNear origin ray mn mx =
      Vec3.compMax (Vec3.vmin (Vec3.divV (Vec3.sub mn origin) ray)
        (Vec3.divV (Vec3.sub mx origin) ray)) := rfl
  have hfar : slabTFar origin ray mn mx =
      Vec3.compMin (Vec3.vmax (Vec3.divV (Vec3.sub mn origin) ray)
        (Vec3.divV (Vec3.sub mx origin) ray)) := rfl
  rw [hnear, hfar]
  unfold hitTestBox
  dsimp only
  split_ifs with hcond
  · refine ⟨by simp [hcond], ?_⟩
    intro ht hht
    injection hht with h
    subst h
    exact ⟨rfl, rfl⟩
  · refine ⟨by simp [hcond], ?_⟩
    intro ht hht
    cases hht

/-- Witness for C9: a ray from `(-2,-2,-2)` along `(1,1,1)` into the unit
cube enters at `tNear = 1` with hit point `(-1,-1,-1)`. -/
theorem hitTestBox_slab_witness :
    (hitTestBox ⟨-2, -2, -2⟩ ⟨1, 1, 1⟩ ⟨-1, -1, -1⟩ ⟨1, 1, 1⟩).isSome = true :=
  (hitTestBox_slab ⟨-2, -2, -2⟩ ⟨1, 1, 1⟩ ⟨-1, -1, -1⟩ ⟨1, 1, 1⟩
    (by norm_num) (by norm_num) (by norm_num)).1.mpr
    (by constructor <;> norm_num [slabTNear, slabTFar])

/-! ### Normal reconstruction (`water.js` surface fs_main line 467 and
caustics vs_main line 609) -/

/-- Reconstruction of the vertical normal component from the stored
`(normalX, normalZ)` pair:
`sqrt(max(0, 1 - normalX*normalX - normalZ*normalZ))` (`water.js` lines 467
and 609).  `sqrtf` models the sqrt builtin. -/
def normalY (sqrtf : ℚ → ℚ) (nb na : ℚ) : ℚ :=
  sqrtf (max 0 (1 - nb * nb - na * na))

/-- CLAIM C8: normal reconstruction is total and clamped.  For every stored
pair, the reconstructed vertical component is nonnegative (the sqrt
argument is clamped to `≥ 0`, so the real sqrt is defined — no NaN); when
`normalX^2 + normalZ^2 ≤ 1` the reconstructed normal has unit square norm,
and when the sum exceeds `1` the vertical component is exactly `0`.  The
hypotheses characterize the sqrt builtin at the one point it is used:
its value there is nonnegative and squares back to the argument. -/
theorem normal_reconstruction_clamped (sqrtf : ℚ → ℚ) (nb na : ℚ)
    (hnn : 0 ≤ sqrtf (max 0 (1 - nb * nb - na * na)))
    (hsq : sqrtf (max 0 (1 - nb * nb - na * na)) *
        sqrtf (max 0 (1 - nb * nb - na * na)) = max 0 (1 - nb * nb - na * na)) :
    0 ≤ normalY sqrtf nb na ∧
    (nb * nb + na * na ≤ 1 →
      nb * nb + normalY sqrtf nb na * normalY sqrtf nb na + na * na = 1) ∧
    (1 < nb * nb + na * na → normalY sqrtf nb na = 0) := by
  refine ⟨hnn, ?_, ?_⟩
  · intro hle
    have hm : max 0 (1 - nb * nb - na * na) = 1 - nb * nb - na * na :=
      max_eq_right (by linarith)
    unfold normalY
    rw [hsq, hm]
    ring
  · intro hgt
    have hm : max 0 (1 - nb * nb - na * na) = 0 :=
      max_eq_left (by linarith)
    unfold normalY
    have h0 : sqrtf (max 0 (1 - nb * nb - na * na)) *
        sqrtf (max 0 (1 - nb * nb - na * na)) = 0 := by rw [hsq, hm]
    exact mul_self_eq_zero.mp h0

/-- Witness for C8 at stored pair `(0, 0)` with the identity as sqrt model
(the clamped argument is `1`, a fixed point of sqrt). -/
theorem normal_reconstruction_clamped_witness :
    0 ≤ normalY id 0 0 ∧
    (0 : ℚ) * 0 + normalY id 0 0 * normalY id 0 0 + 0 * 0 = 1 := by
  have h := normal_reconstruction_clamped id 0 0 (by norm_num) (by norm_num)
  exact ⟨h.1, h.2.1 (by norm_num)⟩

/-! ### Camera raytracer construction and per-pixel rays
(`lightgl.js` Raytracer, lines 130-200) -/

/-- Embedding of a 4×4 matrix in wgpu-matrix column-major element order:
`m0..m3` is the first column, and `(m12, m13, m14)` the translation. -/
structure Mat4 where
  m0 : ℚ
  m1 : ℚ
  m2 : ℚ
  m3 : ℚ
  m4 : ℚ
  m5 : ℚ
  m6 : ℚ
  m7 : ℚ
  m8 : ℚ
  m9 : ℚ
  m10 : ℚ
  m11 : ℚ
  m12 : ℚ
  m13 : ℚ
  m14 : ℚ
  m15 : ℚ
deriving DecidableEq, Repr

/-- Model of wgpu-matrix `vec3.transformMat4` (external dependency of
`lightgl.js`): applies the full homogeneous transform including the
perspective divide; a zero `w` falls back to `1` (the `|| 1` in the
library source). -/
def transformMat4 (m : Mat4) (v : Vec3) : Vec3 :=
  let w0 := m.m3 * v.x + m.m7 * v.y + m.m11 * v.z + m.m15
  let w := if w0 = 0 then 1 else w0
  ⟨(m.m0 * v.x + m.m4 * v.y + m.m8 * v.z + m.m12) / w,
   (m.m1 * v.x + m.m5 * v.y + m.m9 * v.z + m.m13) / w,
   (m.m2 * v.x + m.m6 * v.y + m.m10 * v.z + m.m14) / w⟩

/-- An integer viewport rectangle `[x, y, w, h]` in window coordinates. -/
structure Viewport where
  x : ℚ
  y : ℚ
  w : ℚ
  h : ℚ
deriving DecidableEq, Repr

/-- Embedding of `Raytracer.unProject` (`lightgl.js` lines 159-178): maps
window coordinates to NDC with the vertical flip (`winY = top` maps to
`ndc y = 1`), then applies the inverse view-projection transform. -/
def unProject (invViewProj : Mat4) (vp : Viewport) (winX winY winZ : ℚ) : Vec3 :=
  let x := (winX - vp.x) / vp.w * 2 - 1
  let y := (1 - (winY - vp.y) / vp.h) * 2 - 1
  transformMat4 invViewProj ⟨x, y, winZ⟩

/-- State of a `Raytracer` (`lightgl.js` lines 130-157): the viewport, the
eye position and the four precomputed corner ray directions. -/
structure Raytracer where
  viewport : Viewport
  eye : Vec3
  ray00 : Vec3
  ray10 : Vec3
  ray01 : Vec3
  ray11 : Vec3

/-- Embedding of the `Raytracer` constructor (`lightgl.js` lines 131-157):
the eye is the inverse view applied to the local origin, and the four
corner directions unproject the viewport corners at far depth (`winZ = 1`)
minus the eye; `ray00` comes from `(minX, minY)` (top-left, since smaller
window Y unprojects to larger NDC y), `ray10` from `(maxX, minY)`, `ray01`
from `(minX, maxY)`, `ray11` from `(maxX, maxY)`.  The inverse matrices
are parameters: the source computes them with the external `mat4.invert`. -/
def mkRaytracer (invView invViewProj : Mat4) (vp : Viewport) : Raytracer :=
  let eye := transformMat4 invView ⟨0, 0, 0⟩
  { viewport := vp
    eye := eye
    ray00 := Vec3.sub (unProject invViewProj vp vp.x vp.y 1) eye
    ray10 := Vec3.sub (unProject invViewProj vp (vp.x + vp.w) vp.y 1) eye
    ray01 := Vec3.sub (unProject invViewProj vp vp.x (vp.y + vp.h) 1) eye
    ray11 := Vec3.sub (unProject invViewProj vp (vp.x + vp.w) (vp.y + vp.h) 1) eye }

/-- Embedding of `Raytracer.getRayForPixel` (`lightgl.js` lines 180-200):
bilinear interpolation of the corner directions by the normalized screen
fractions, then normalization. -/
def getRayForPixel (sqrtf : ℚ → ℚ) (rt : Raytracer) (px py : ℚ) : Vec3 :=
  let u := (px - rt.viewport.x) / rt.viewport.w
  let v := (py - rt.viewport.y) / rt.viewport.h
  let rayTop := Vec3.lerp rt.ray00 rt.ray10 u
  let rayBottom := Vec3.lerp rt.ray01 rt.ray11 u
  Vec3.unit sqrtf (Vec3.lerp rayTop rayBottom v)

/-- Inverse view matrix of a camera at `(0, 0, 5)` looking down `-Z`
(a pure translation), used for the claim's concrete scenario. -/
def invViewLookMinusZ : Mat4 := ⟨1, 0, 0, 0, 0, 1, 0, 0, 0, 0, 1, 0, 0, 0, 5, 1⟩

/-- Inverse view-projection matrix of a symmetric frustum for that camera:
NDC `(x, y, z)` maps to world `(2x, 3y/2, 5 - 10z)` (far plane `z = 1`
maps to world depth `-5`), with no perspective component. -/
def invViewProjLookMinusZ : Mat4 :=
  ⟨2, 0, 0, 0, 0, 3/2, 0, 0, 0, 0, -10, 0, 0, 0, 5, 1⟩

/-- CLAIM C7: `getRayForPixel` returns the normalized bilinear
interpolation of the four precomputed corner directions by the normalized
screen fractions `(u, v)`, with `v` measured top-to-bottom; and in the
concrete scenario — viewport `[0, 0, 800, 600]`, camera at `(0, 0, 5)`
looking down `-Z` with a symmetric frustum — the constructor places
`ray00` top-left (negative x, positive y) and the center pixel
`(400, 300)` yields exactly the forward vector `(0, 0, -1)`.  The
hypothesis pins the sqrt builtin at the one value used,
`sqrt 100 = 10`. -/
theorem getRayForPixel_bilinear_center (sqrtf : ℚ → ℚ) (rt : Raytracer)
    (px py : ℚ) (hsq : sqrtf 100 = 10) :
    getRayForPixel sqrtf rt px py =
      Vec3.unit sqrtf
        (Vec3.lerp
          (Vec3.lerp rt.ray00 rt.ray10 ((px - rt.viewport.x) / rt.viewport.w))
          (Vec3.lerp rt.ray01 rt.ray11 ((px - rt.viewport.x) / rt.viewport.w))
          ((py - rt.viewport.y) / rt.viewport.h)) ∧
    (mkRaytracer invViewLookMinusZ invViewProjLookMinusZ ⟨0, 0, 800, 600⟩).eye
      = ⟨0, 0, 5⟩ ∧
    (mkRaytracer invViewLookMinusZ invViewProjLookMinusZ ⟨0, 0, 800, 600⟩).ray00
      = ⟨-2, 3/2, -10⟩ ∧
    getRayForPixel sqrtf
      (mkRaytracer invViewLookMinusZ invViewProjLookMinusZ ⟨0, 0, 800, 600⟩)
      400 300 = ⟨0, 0, -1⟩ := by
  have heye : (mkRaytracer invViewLookMinusZ invViewProjLookMinusZ
      ⟨0, 0, 800, 600⟩).eye = ⟨0, 0, 5⟩ := by
    unfold mkRaytracer transformMat4 invViewLookMinusZ
    norm_num
  have hray00 : (mkRaytracer invViewLookMinusZ invViewProjLookMinusZ
      ⟨0, 0, 800, 600⟩).ray00 = ⟨-2, 3/2, -10⟩ := by
    unfold mkRaytracer unProject transformMat4 invViewLookMinusZ invViewProjLookMinusZ
    norm_num [Vec3.sub]
  refine ⟨rfl, heye, hray00, ?_⟩
  have hmid : Vec3.lerp
      (Vec3.lerp (mkRaytracer invViewLookMinusZ invViewProjLookMinusZ
        ⟨0, 0, 800, 600⟩).ray00
        (mkRaytracer invViewLookMinusZ invViewProjLookMinusZ
        ⟨0, 0, 800, 600⟩).ray10 ((400 - (0 : ℚ)) / 800))
      (Vec3.lerp (mkRaytracer invViewLookMinusZ invViewProjLookMinusZ
        ⟨0, 0, 800, 600⟩).ray01
        (mkRaytracer invViewLookMinusZ invViewProjLookMinusZ
        ⟨0, 0, 800, 600⟩).ray11 ((400 - (0 : ℚ)) / 800))
      ((300 - (0 : ℚ)) / 600) = ⟨0, 0, -10⟩ := by
    unfold mkRaytracer unProject transformMat4 invViewLookMinusZ invViewProjLookMinusZ
    norm_num [Vec3.lerp, Vec3.add, Vec3.sub, Vec3.mulScalar]
  show Vec3.unit sqrtf _ = _
  rw [show ((400 : ℚ) -
      (mkRaytracer invViewLookMinusZ invViewProjLookMinusZ
        ⟨0, 0, 800, 600⟩).viewport.x) /
      (mkRaytracer invViewLookMinusZ invViewProjLookMinusZ
        ⟨0, 0, 800, 600⟩).viewport.w = (400 - (0 : ℚ)) / 800 from rfl]
  rw [show ((300 : ℚ) -
      (mkRaytracer invViewLookMinusZ invViewProjLookMinusZ
        ⟨0, 0, 800, 600⟩).viewport.y) /
      (mkRaytracer invViewLookMinusZ invViewProjLookMinusZ
        ⟨0, 0, 800, 600⟩).viewport.h = (300 - (0 : ℚ)) / 600 from rfl]
  rw [hmid]
  unfold Vec3.unit Vec3.length Vec3.dot Vec3.divScalar
  norm_num [hsq]

/-- Witness for C7 with a concrete sqrt model pinned at `100 ↦ 10`. -/
theorem getRayForPixel_bilinear_center_witness :
    getRayForPixel (fun q => if q = 100 then 10 else q)
      (mkRaytracer invViewLookMinusZ invViewProjLookMinusZ ⟨0, 0, 800, 600⟩)
      400 300 = ⟨0, 0, -1⟩ :=
  (getRayForPixel_bilinear_center (fun q => if q = 100 then 10 else q)
    (mkRaytracer invViewLookMinusZ invViewProjLookMinusZ ⟨0, 0, 800, 600⟩)
    400 300 (by norm_num)).2.2.2

/-! ### Ping-pong buffering (`water.js` Water.runPipeline, lines 224-256) -/

/-- The uv coordinate of the fragment at texel `(i, j)` of a
`w × h` render target (texel centers). -/
def uvOf (w h : ℕ) (i j : ℕ) : ℚ × ℚ :=
  (((i : ℚ) + 1/2) / (w : ℚ), ((j : ℚ) + 1/2) / (h : ℚ))

/-- The normal-update fragment shader at one texel (`water.js` lines
138-152): forward differences of the height toward `+x` and `+y`, tangents
`dx = (delta.x, val_dx - r, 0)` and `dy = (0, val_dy - r, delta.y)`, and
the stored pair is the x and z components of `normalize(cross(dy, dx))`. -/
def normalCell (sqrtf : ℚ → ℚ) (w h : ℕ) (grid : GridFun) (i j : ℕ) : Cell :=
  let info := grid i j
  let val_dx := (sampleClamped w h grid ((i : ℤ) + 1) j).r
  let val_dy := (sampleClamped w h grid i ((j : ℤ) + 1)).r
  let dx : Vec3 := ⟨1 / (w : ℚ), val_dx - info.r, 0⟩
  let dy : Vec3 := ⟨0, val_dy - info.r, 1 / (h : ℚ)⟩
  let n := Vec3.unit sqrtf (Vec3.cross dy dx)
  { info with b := n.x, a := n.z }

/-- The four simulation operations of the `Water` class (`water.js` lines
258-287), each a single `runPipeline` call with the corresponding
fragment shader. -/
inductive Op where
  | addDrop (x y radius strength : ℚ)
  | stepSimulation
  | updateNormals
  | moveSphere (oldCenter newCenter : Vec3) (radius : ℚ)

/-- The full-grid pass dispatched by each operation: the per-texel shader
of that operation mapped over the grid, reading only the source grid. -/
def opPass (sqrtf expf cosf : ℚ → ℚ) (w h : ℕ) : Op → GridFun → GridFun
  | .addDrop x y radius strength => fun grid i j =>
      dropCell sqrtf cosf (x, y) radius strength (uvOf w h i j) (grid i j)
  | .stepSimulation => fun grid i j => updateCell w h grid i j
  | .updateNormals => fun grid i j => normalCell sqrtf w h grid i j
  | .moveSphere oldC newC radius => fun grid i j =>
      sphereCell sqrtf expf oldC newC radius (uvOf w h i j) (grid i j)

/-- A physical state texture: an identity (which GPU texture object it is)
plus its contents. -/
structure WaterTex where
  id : ℕ
  data : GridFun

/-- The double-buffered simulation state: `textureA` is the current
(authoritative) buffer, `textureB` the scratch buffer
(`water.js` lines 17-18). -/
structure WaterState where
  textureA : WaterTex
  textureB : WaterTex

/-- Embedding of `Water.runPipeline` (`water.js` lines 224-256): the
fragment pass samples `textureA` (binding 0) and renders into `textureB`
(the lone color attachment, `loadOp: clear` so its old contents are fully
replaced), then the two texture references are swapped exactly once.
After the swap the physical buffer that was scratch holds the pass output
and is current; the physical buffer that was read is untouched and is now
scratch. -/
def runPipeline (pass : GridFun → GridFun) (s : WaterState) : WaterState :=
  { textureA := { id := s.textureB.id, data := pass s.textureA.data },
    textureB := s.textureA }

/-- One simulation operation: a single `runPipeline` dispatch of that
operation's pass (`water.js` lines 258-287). -/
def applyOp (sqrtf expf cosf : ℚ → ℚ) (w h : ℕ) (o : Op) (s : WaterState) :
    WaterState :=
  runPipeline (opPass sqrtf expf cosf w h o) s

/-- A sequence of simulation operations applied in order. -/
def applyOps (sqrtf expf cosf : ℚ → ℚ) (w h : ℕ) :
    List Op → WaterState → WaterState
  | [], s => s
  | o :: rest, s =>
      applyOps sqrtf expf cosf w h rest (applyOp sqrtf expf cosf w h o s)

/-- The current/scratch buffer identities alternate with every operation:
after a sequence of operations, the current buffer is the original current
one for an even number of operations and the original scratch one for an
odd number (and symmetrically for scratch). -/
theorem applyOps_alternates (sqrtf expf cosf : ℚ → ℚ) (w h : ℕ)
    (ops : List Op) :
    ∀ s : WaterState,
      (applyOps sqrtf expf cosf w h ops s).textureA.id =
        (if ops.length % 2 = 0 then s.textureA.id else s.textureB.id) ∧
      (applyOps sqrtf expf cosf w h ops s).textureB.id =
        (if ops.length % 2 = 0 then s.textureB.id else s.textureA.id) := by
  induction ops with
  | nil => intro s; simp [applyOps]
  | cons o rest ih =>
    intro s
    have hrec := ih (applyOp sqrtf expf cosf w h o s)
    have hA : (applyOp sqrtf expf cosf w h o s).textureA.id = s.textureB.id := rfl
    have hB : (applyOp sqrtf expf cosf w h o s).textureB.id = s.textureA.id := rfl
    have hlen : (o :: rest).length % 2 = (rest.length + 1) % 2 := by
      simp [List.length_cons]
    rw [show applyOps sqrtf expf cosf w h (o :: rest) s =
      applyOps sqrtf expf cosf w h rest (applyOp sqrtf expf cosf w h o s) from rfl]
    rw [hrec.1, hrec.2, hA, hB, hlen]
    rcases Nat.even_or_odd rest.length with he | ho
    · have h0 : rest.length % 2 = 0 := Nat.even_iff.mp he
      have h1 : (rest.length + 1) % 2 = 1 := by omega
      rw [h0, h1]
      norm_num
    · have h0 : rest.length % 2 = 1 := Nat.odd_iff.mp ho
      have h1 : (rest.length + 1) % 2 = 0 := by omega
      rw [h0, h1]
      norm_num

/-- CLAIM C6: ping-pong buffer invariant.  Every simulation operation
(addDrop, stepSimulation, updateNormals, moveSphere) reads only the
current buffer and writes only the scratch buffer — the buffer it read is
bit-identical afterwards — and swaps the two roles exactly once: the new
current buffer is the old scratch one holding exactly the pass output
computed from the old current contents.  Hence, starting from two distinct
physical buffers, after any sequence of operations the two roles are held
by distinct buffers (exactly one is authoritative) and the roles alternate
with every operation. -/
theorem ping_pong_invariant (sqrtf expf cosf : ℚ → ℚ) (w h : ℕ)
    (s : WaterState) (hdistinct : s.textureA.id ≠ s.textureB.id) :
    (∀ o : Op,
      (applyOp sqrtf expf cosf w h o s).textureA.id = s.textureB.id ∧
      (applyOp sqrtf expf cosf w h o s).textureB = s.textureA ∧
      (applyOp sqrtf expf cosf w h o s).textureA.data =
        opPass sqrtf expf cosf w h o s.textureA.data ∧
      (applyOp sqrtf expf cosf w h o s).textureA.id ≠
        (applyOp sqrtf expf cosf w h o s).textureB.id) ∧
    (∀ ops : List Op,
      (applyOps sqrtf expf cosf w h ops s).textureA.id ≠
        (applyOps sqrtf expf cosf w h ops s).textureB.id ∧
      (applyOps sqrtf expf cosf w h ops s).textureA.id =
        (if ops.length % 2 = 0 then s.textureA.id else s.textureB.id)) := by
  constructor
  · intro o
    exact ⟨rfl, rfl, rfl, fun hcontra => hdistinct (by
      have hA : (applyOp sqrtf expf cosf w h o s).textureA.id = s.textureB.id := rfl
      have hB : (applyOp sqrtf expf cosf w h o s).textureB.id = s.textureA.id := rfl
      rw [hA, hB] at hcontra
      exact hcontra.symm)⟩
  · intro ops
    have h := applyOps_alternates sqrtf expf cosf w h ops s
    refine ⟨?_, h.1⟩
    rw [h.1, h.2]
    by_cases he : ops.length % 2 = 0
    · rw [if_pos he, if_pos he]
      exact hdistinct
    · rw [if_neg he, if_neg he]
      exact fun hcontra => hdistinct hcontra.symm

/-- Witness for C6 on a concrete two-buffer state with buffer identities
`0` and `1`: one stepSimulation swaps the roles and keeps them distinct. -/
theorem ping_pong_invariant_witness :
    (applyOp id id id 4 4 Op.stepSimulation
      ⟨⟨0, fun _ _ => ⟨0, 0, 0, 0⟩⟩, ⟨1, fun _ _ => ⟨0, 0, 0, 0⟩⟩⟩).textureA.id = 1 ∧
    (applyOp id id id 4 4 Op.stepSimulation
      ⟨⟨0, fun _ _ => ⟨0, 0, 0, 0⟩⟩, ⟨1, fun _ _ => ⟨0, 0, 0, 0⟩⟩⟩).textureA.id ≠
    (applyOp id id id 4 4 Op.stepSimulation
      ⟨⟨0, fun _ _ => ⟨0, 0, 0, 0⟩⟩, ⟨1, fun _ _ => ⟨0, 0, 0, 0⟩⟩⟩).textureB.id := by
  have h := ping_pong_invariant id id id 4 4
    ⟨⟨0, fun _ _ => ⟨0, 0, 0, 0⟩⟩, ⟨1, fun _ _ => ⟨0, 0, 0, 0⟩⟩⟩ (by norm_num)
  exact ⟨(h.1 Op.stepSimulation).1, (h.1 Op.stepSimulation).2.2.2⟩

end WaterSim
